import Mathlib

/-!
Verification of the agent-factory coordination subsystem.

This file shallowly embeds the data model and the coordination operations of
the repository (modules `src/agent_factory/models.py`,
`src/agent_factory/agents/coordinator.py`, `src/agent_factory/agents/base.py`,
`src/agent_factory/workflows/prp_engine.py` and
`src/agents/coordinator/task_coordinator.py`) as executable Lean definitions,
and proves or refutes the specified properties about them.

Conventions of the embedding:
- Python dicts that are only read through `.get` on fixed keys are embedded as
  association lists or as dedicated record fields for those keys.
- `uuid4()` id generation is embedded as an explicit id supply (creation-order
  indices fed to a supply function) where ids matter.
- `async` effects (message sends, knowledge-base writes, agent execution) are
  embedded by explicit state passing and by parametrising over the behaviour
  of the awaited collaborator; raised exceptions become `Except.error`.
-/

namespace AgentFactory

/-- Message types, from `MessageType` in `src/agent_factory/models.py`. -/
inductive MessageType where
  | taskAssignment
  | taskResult
  | taskUpdate
  | coordination
  | error
  | heartbeat
deriving DecidableEq, Repr

/-- Task priorities, from `TaskPriority` in `src/agent_factory/models.py`. -/
inductive TaskPriority where
  | low
  | medium
  | high
  | critical
deriving DecidableEq, Repr

/-- Agent statuses, from `AgentStatus` in `src/agent_factory/models.py`. -/
inductive AgentStatus where
  | idle
  | busy
  | error
  | offline
deriving DecidableEq, Repr

/-- Task specification, from the `TaskSpecification` dataclass in
`src/agent_factory/models.py`.  The `metadata` dict is embedded by its two
keys that the coordinator reads (`metadata["task_type"]` and
`metadata["depends_on"]`); the remaining metadata entries (`prp_goal`,
`step_index`, `original_prp`) are never read by the verified code paths and
are not modelled.  Timestamps are not modelled (never read). -/
structure TaskSpecification where
  id : String
  title : String
  description : String
  requirements : List String
  acceptanceCriteria : List String
  priority : TaskPriority
  assignedAgent : Option String
  dependencies : List String
  metaTaskType : Option String
  metaDependsOn : List String
deriving DecidableEq, Repr

/-- Default-constructed task used only as the out-of-range fallback of
`List.getD` in theorem statements (mirrors the dataclass field defaults). -/
def emptyTask : TaskSpecification :=
  { id := ""
    title := ""
    description := ""
    requirements := []
    acceptanceCriteria := []
    priority := TaskPriority.medium
    assignedAgent := none
    dependencies := []
    metaTaskType := none
    metaDependsOn := [] }

/-- Execution result, from the `ExecutionResult` dataclass in
`src/agent_factory/models.py`.  The `output` dict is embedded as a key-value
list of strings (the coordinator only ever writes string-valued entries in
the verified paths); `performance_metrics` and timestamps are not read by any
verified code path and are not modelled. -/
structure ExecutionResult where
  isSuccessful : Bool
  output : List (String × String)
  errors : List String
  artifacts : List String
deriving DecidableEq, Repr

/-- Mirrors the classmethod `ExecutionResult.success`. -/
def ExecutionResult.successR (output : List (String × String)) : ExecutionResult :=
  { isSuccessful := true, output := output, errors := [], artifacts := [] }

/-- Mirrors the classmethod `ExecutionResult.failure`. -/
def ExecutionResult.failureR (errors : List String) : ExecutionResult :=
  { isSuccessful := false, output := [], errors := errors, artifacts := [] }

/-- Agent record, from the `AgentInfo` dataclass in
`src/agent_factory/models.py` (fields read by the coordinator). -/
structure AgentInfo where
  id : String
  name : String
  role : String
  status : AgentStatus
  currentTask : Option String
deriving DecidableEq, Repr

/-- PRP, from the `AgentPRP` dataclass in `src/agent_factory/models.py`.
The `context` and `metadata` dicts are not read by the verified code paths
(decomposition and validation) and are not modelled. -/
structure AgentPRP where
  goal : String
  justification : String
  implementationSteps : List String
  validationCriteria : List String
  successMetrics : List String
  failureRecovery : List String
deriving DecidableEq, Repr

/-! ## Priority sorting (`TaskCoordinator._sort_tasks_by_priority`) -/

/-- The `priority_order` dict of `_sort_tasks_by_priority` in
`src/agent_factory/agents/coordinator.py`. -/
def priorityOrder : TaskPriority → Nat
  | TaskPriority.critical => 0
  | TaskPriority.high => 1
  | TaskPriority.medium => 2
  | TaskPriority.low => 3

/-- Sort key comparison used by `sorted(tasks, key=lambda t: priority_order[t.priority])`. -/
def taskLE (a b : TaskSpecification) : Prop :=
  priorityOrder a.priority ≤ priorityOrder b.priority

instance : DecidableRel taskLE :=
  fun a b => Nat.decLe (priorityOrder a.priority) (priorityOrder b.priority)

instance : IsTotal TaskSpecification taskLE :=
  ⟨fun a b => Nat.le_total (priorityOrder a.priority) (priorityOrder b.priority)⟩

instance : IsTrans TaskSpecification taskLE :=
  ⟨fun _ _ _ hab hbc => Nat.le_trans hab hbc⟩

/-- Embedding of `_sort_tasks_by_priority`: Python's `sorted` with a key
function is a stable sort by that key; insertion sort with the non-strict
key comparison computes exactly that stable sort (the theorems below pin the
output down as the unique key-sorted, stable permutation of the input). -/
def sortTasksByPriority (tasks : List TaskSpecification) : List TaskSpecification :=
  List.insertionSort taskLE tasks

theorem filter_orderedInsert_pos (p : TaskPriority) (a : TaskSpecification)
    (l : List TaskSpecification) (ha : a.priority = p) :
    (List.orderedInsert taskLE a l).filter (fun t => decide (t.priority = p)) =
      a :: l.filter (fun t => decide (t.priority = p)) := by
  induction l with
  | nil => simp [List.orderedInsert, ha]
  | cons b bs ih =>
    by_cases hr : taskLE a b
    · simp [List.orderedInsert, hr, ha]
    · have hb : b.priority ≠ p := by
        intro hbp
        apply hr
        unfold taskLE
        rw [ha, hbp]
      simp only [List.orderedInsert, if_neg hr, List.filter_cons]
      rw [ih]
      simp [hb]

theorem filter_orderedInsert_neg (p : TaskPriority) (a : TaskSpecification)
    (l : List TaskSpecification) (ha : a.priority ≠ p) :
    (List.orderedInsert taskLE a l).filter (fun t => decide (t.priority = p)) =
      l.filter (fun t => decide (t.priority = p)) := by
  induction l with
  | nil => simp [List.orderedInsert, ha]
  | cons b bs ih =>
    by_cases hr : taskLE a b
    · simp [List.orderedInsert, hr, ha]
    · simp only [List.orderedInsert, if_neg hr, List.filter_cons]
      rw [ih]

theorem filter_insertionSort (p : TaskPriority) (l : List TaskSpecification) :
    (List.insertionSort taskLE l).filter (fun t => decide (t.priority = p)) =
      l.filter (fun t => decide (t.priority = p)) := by
  induction l with
  | nil => rfl
  | cons a l ih =>
    simp only [List.insertionSort, List.filter_cons]
    by_cases hp : a.priority = p
    · rw [filter_orderedInsert_pos p a _ hp, ih]
      simp [hp]
    · rw [filter_orderedInsert_neg p a _ hp, ih]
      simp [hp]

/-- C7: `_sort_tasks_by_priority` returns a permutation of its input that is
ordered by the priority key CRITICAL < HIGH < MEDIUM < LOW, and the sort is
stable: for each priority level, the sub-sequence of tasks of that priority is
exactly the corresponding sub-sequence of the input, in the original order. -/
theorem sortTasksByPriority_spec (tasks : List TaskSpecification) :
    (sortTasksByPriority tasks).Perm tasks ∧
    List.Sorted taskLE (sortTasksByPriority tasks) ∧
    ∀ p : TaskPriority,
      (sortTasksByPriority tasks).filter (fun t => decide (t.priority = p)) =
        tasks.filter (fun t => decide (t.priority = p)) := by
  refine ⟨List.perm_insertionSort taskLE tasks, List.sorted_insertionSort taskLE tasks, ?_⟩
  intro p
  exact filter_insertionSort p tasks

/-! ## PRP decomposition (`TaskCoordinator._decompose_prp_to_tasks`) -/

/-- Python's `str.lower()`, character-wise (every string it is applied to in
the verified code paths is ASCII). -/
def strToLower (s : String) : String :=
  String.mk (s.data.map Char.toLower)

/-- Contiguous-substring test on character lists: does `pat` occur inside `s`? -/
def charsContain (pat : List Char) : List Char → Bool
  | [] => pat.isEmpty
  | c :: rest => pat.isPrefixOf (c :: rest) || charsContain pat rest

/-- Python's `in` substring test on strings, used as `keyword in step_lower`. -/
def strContains (s pat : String) : Bool :=
  charsContain pat.toList s.toList

/-- Mirrors `any(keyword in step_lower for keyword in [...])`. -/
def containsAny (s : String) (keywords : List String) : Bool :=
  keywords.any (fun k => strContains s k)

/-- Embedding of `TaskCoordinator._classify_implementation_step`. -/
def classifyImplementationStep (step : String) : String :=
  let stepLower := strToLower step
  if containsAny stepLower ["plan", "design", "architect", "breakdown"] then "planning"
  else if containsAny stepLower ["implement", "code", "create", "build", "develop"] then "coding"
  else if containsAny stepLower ["test", "validate", "verify", "check"] then "testing"
  else if containsAny stepLower ["review", "audit", "quality", "inspect"] then "review"
  else if containsAny stepLower ["deploy", "release", "install", "configure"] then "deployment"
  else if containsAny stepLower ["integrate", "merge", "combine", "connect"] then "integration"
  else "general"

/-- The step-task constructed in the loop body of `_decompose_prp_to_tasks`;
`ids` is the uuid supply indexed by creation order, `i` the step index. -/
def mkStepTask (ids : Nat → String) (prp : AgentPRP) (i : Nat) (step : String) :
    TaskSpecification :=
  { id := ids i
    title := "Step " ++ toString (i + 1) ++ ": " ++ step.take 50 ++ "..."
    description := step
    requirements := prp.validationCriteria
    acceptanceCriteria := prp.successMetrics
    priority := if i < 3 then TaskPriority.high else TaskPriority.medium
    assignedAgent := none
    dependencies := []
    metaTaskType := some (classifyImplementationStep step)
    metaDependsOn := [] }

/-- The `for i, step in enumerate(prp.implementation_steps)` loop of
`_decompose_prp_to_tasks`, started at index `i`. -/
def stepTasksFrom (ids : Nat → String) (prp : AgentPRP) :
    Nat → List String → List TaskSpecification
  | _, [] => []
  | i, step :: rest => mkStepTask ids prp i step :: stepTasksFrom ids prp (i + 1) rest

/-- The synthetic validation task appended by `_decompose_prp_to_tasks`.
Note: the generated step-task ids go into `metadata["depends_on"]`
(`metaDependsOn`); the `dependencies` dataclass field is never assigned and
keeps its default `[]`. -/
def mkValidationTask (ids : Nat → String) (prp : AgentPRP)
    (stepTasks : List TaskSpecification) : TaskSpecification :=
  { id := ids stepTasks.length
    title := "Validate PRP Implementation"
    description := "Validate that the implementation meets all criteria for: " ++ prp.goal
    requirements := prp.validationCriteria
    acceptanceCriteria := prp.successMetrics
    priority := TaskPriority.critical
    assignedAgent := none
    dependencies := []
    metaTaskType := some "validation"
    metaDependsOn := stepTasks.map TaskSpecification.id }

/-- Embedding of `TaskCoordinator._decompose_prp_to_tasks`. -/
def decomposePRPToTasks (ids : Nat → String) (prp : AgentPRP) : List TaskSpecification :=
  let stepTasks := stepTasksFrom ids prp 0 prp.implementationSteps
  stepTasks ++ [mkValidationTask ids prp stepTasks]

theorem length_stepTasksFrom (ids : Nat → String) (prp : AgentPRP) :
    ∀ (i : Nat) (steps : List String), (stepTasksFrom ids prp i steps).length = steps.length := by
  intro i steps
  induction steps generalizing i with
  | nil => rfl
  | cons s rest ih => simp [stepTasksFrom, ih]

theorem getD_stepTasksFrom (ids : Nat → String) (prp : AgentPRP) :
    ∀ (steps : List String) (i k : Nat), k < steps.length →
      (stepTasksFrom ids prp i steps).getD k emptyTask =
        mkStepTask ids prp (i + k) (steps.getD k "") := by
  intro steps
  induction steps with
  | nil => intro i k hk; exact absurd hk (Nat.not_lt_zero k)
  | cons s rest ih =>
    intro i k hk
    cases k with
    | zero => simp [stepTasksFrom]
    | succ k' =>
      have hk' : k' < rest.length := Nat.lt_of_succ_lt_succ hk
      have := ih (i + 1) k' hk'
      simp only [stepTasksFrom, List.getD_cons_succ]
      rw [this, Nat.add_assoc, Nat.add_comm 1 k']

/-- Concrete uuid supply for the C2 scenario: creation-order indices as strings. -/
def cexIds : Nat → String := fun n => toString n

/-- Concrete 3-step PRP for the C2 scenario (3 implementation steps,
2 validation criteria). -/
def cexPrp : AgentPRP :=
  { goal := "ship feature"
    justification := "needed"
    implementationSteps := ["alpha", "beta", "gamma"]
    validationCriteria := ["v1", "v2"]
    successMetrics := []
    failureRecovery := [] }

/-- C2 counterexample: for the 3-step PRP, decomposition does produce 4 tasks
with the 4th CRITICAL, but the 4th task's `dependencies` field is the empty
default, not the ids of the first 3 tasks (those ids are only recorded in
`metadata["depends_on"]`), so the claim as stated is false at this input. -/
theorem decomposePRPToTasks_dependencies_counterexample :
    (decomposePRPToTasks cexIds cexPrp).length = 4 ∧
    ((decomposePRPToTasks cexIds cexPrp).getD 3 emptyTask).priority = TaskPriority.critical ∧
    ((decomposePRPToTasks cexIds cexPrp).take 3).map TaskSpecification.id = ["0", "1", "2"] ∧
    ((decomposePRPToTasks cexIds cexPrp).getD 3 emptyTask).dependencies = [] ∧
    ((decomposePRPToTasks cexIds cexPrp).getD 3 emptyTask).dependencies ≠
      ((decomposePRPToTasks cexIds cexPrp).take 3).map TaskSpecification.id := by
  refine ⟨rfl, rfl, rfl, rfl, ?_⟩
  intro h
  rw [show ((decomposePRPToTasks cexIds cexPrp).getD 3 emptyTask).dependencies =
        ([] : List String) from rfl,
      show ((decomposePRPToTasks cexIds cexPrp).take 3).map TaskSpecification.id =
        ["0", "1", "2"] from rfl] at h
  exact List.noConfusion h

/-- C2 (amended): for every PRP with `n` implementation steps, decomposition
emits exactly `n + 1` TaskSpecs: one per step (priority HIGH for the first
three steps, MEDIUM thereafter, empty `dependencies`), plus one final
synthetic validation TaskSpec with priority CRITICAL whose
`metadata["depends_on"]` is the full list of the `n` generated step-task ids,
while its `dependencies` field remains the empty default. -/
theorem decomposePRPToTasks_spec (ids : Nat → String) (prp : AgentPRP) :
    (decomposePRPToTasks ids prp).length = prp.implementationSteps.length + 1 ∧
    (∀ i, i < prp.implementationSteps.length →
      ((decomposePRPToTasks ids prp).getD i emptyTask).priority =
        (if i < 3 then TaskPriority.high else TaskPriority.medium) ∧
      ((decomposePRPToTasks ids prp).getD i emptyTask).id = ids i ∧
      ((decomposePRPToTasks ids prp).getD i emptyTask).dependencies = []) ∧
    ((decomposePRPToTasks ids prp).getD prp.implementationSteps.length emptyTask).priority =
      TaskPriority.critical ∧
    ((decomposePRPToTasks ids prp).getD prp.implementationSteps.length emptyTask).metaTaskType =
      some "validation" ∧
    ((decomposePRPToTasks ids prp).getD prp.implementationSteps.length emptyTask).metaDependsOn =
      ((decomposePRPToTasks ids prp).take prp.implementationSteps.length).map
        TaskSpecification.id ∧
    ((decomposePRPToTasks ids prp).getD prp.implementationSteps.length emptyTask).dependencies =
      [] := by
  have hlen : (stepTasksFrom ids prp 0 prp.implementationSteps).length =
      prp.implementationSteps.length := length_stepTasksFrom ids prp 0 prp.implementationSteps
  have hlast : (decomposePRPToTasks ids prp).getD prp.implementationSteps.length emptyTask =
      mkValidationTask ids prp (stepTasksFrom ids prp 0 prp.implementationSteps) := by
    unfold decomposePRPToTasks
    rw [List.getD_eq_getElem?_getD, List.getElem?_append_right (by omega)]
    simp [hlen]
  have htake : (decomposePRPToTasks ids prp).take prp.implementationSteps.length =
      stepTasksFrom ids prp 0 prp.implementationSteps := by
    unfold decomposePRPToTasks
    rw [← hlen, List.take_left]
  refine ⟨?_, ?_, ?_, ?_, ?_, ?_⟩
  · unfold decomposePRPToTasks
    simp [hlen]
  · intro i hi
    have hgd : (decomposePRPToTasks ids prp).getD i emptyTask =
        mkStepTask ids prp (0 + i) (prp.implementationSteps.getD i "") := by
      unfold decomposePRPToTasks
      rw [List.getD_eq_getElem?_getD, List.getElem?_append_left (by omega),
        ← List.getD_eq_getElem?_getD]
      exact getD_stepTasksFrom ids prp prp.implementationSteps 0 i hi
    rw [hgd, Nat.zero_add]
    exact ⟨rfl, rfl, rfl⟩
  · rw [hlast]; rfl
  · rw [hlast]; rfl
  · rw [hlast, htake]; rfl
  · rw [hlast]; rfl

/-- C2 witness: the amended claim instantiated at the concrete 3-step PRP and
at step index 0 (discharging the `i < n` hypothesis there). -/
theorem decomposePRPToTasks_spec_witness :
    0 < cexPrp.implementationSteps.length ∧
    ((decomposePRPToTasks cexIds cexPrp).getD 0 emptyTask).priority = TaskPriority.high := by
  refine ⟨by decide, ?_⟩
  have h := ((decomposePRPToTasks_spec cexIds cexPrp).2.1 0 (by decide)).1
  simpa using h

/-! ## Task batching (`TaskCoordinator._create_task_batches`) -/

/-- The loop of `_create_task_batches`, with the `batches` and
`current_batch` accumulators made explicit.  The guard mirrors Python's
operator precedence literally: `not current_batch or (len(current_batch) < 3
and task_type != "validation")` — so an empty current batch accepts any task,
a validation task included.  In the `else` branch `current_batch` is
necessarily non-empty, so the guarded append of the Python code is
unconditional here. -/
def batchesLoop :
    List TaskSpecification → List (List TaskSpecification) → List TaskSpecification →
      List (List TaskSpecification)
  | [], batches, current => if current.isEmpty then batches else batches ++ [current]
  | t :: ts, batches, current =>
    if current.isEmpty ||
        (decide (current.length < 3) && decide (t.metaTaskType.getD "general" ≠ "validation")) then
      batchesLoop ts batches (current ++ [t])
    else
      batchesLoop ts (batches ++ [current]) [t]

/-- Embedding of `TaskCoordinator._create_task_batches`. -/
def createTaskBatches (tasks : List TaskSpecification) : List (List TaskSpecification) :=
  batchesLoop tasks [] []

/-- Concrete validation task for the C3 failing input (shape of the synthetic
validation task after priority sorting puts it first). -/
def cexValidationTask : TaskSpecification :=
  { emptyTask with
      id := "v1"
      title := "Validate PRP Implementation"
      priority := TaskPriority.critical
      metaTaskType := some "validation" }

/-- Concrete non-validation task for the C3 failing input. -/
def cexCodingTask : TaskSpecification :=
  { emptyTask with
      id := "c1"
      title := "Step 1: implement"
      priority := TaskPriority.high
      metaTaskType := some "coding" }

/-- C3 failing input, evaluated: batching the two-task list
`[validation, coding]` yields the single batch `[validation, coding]` — the
validation task does not run alone; the coding task is placed into its batch.
This contradicts the claim (and the source's own comment "Validation should
be sequential"): the guard's precedence only keeps a validation task from
joining a non-empty batch, but lets later tasks join the validation task's
batch. -/
theorem createTaskBatches_validation_not_alone :
    createTaskBatches [cexValidationTask, cexCodingTask] =
      [[cexValidationTask, cexCodingTask]] ∧
    cexValidationTask.metaTaskType = some "validation" ∧
    cexCodingTask.metaTaskType ≠ some "validation" := by
  refine ⟨rfl, rfl, ?_⟩
  intro h
  have h' : some "coding" = some "validation" := h
  have h'' : "coding" = "validation" := Option.some.inj h'
  exact absurd h'' (by decide)

/-! ## Workflow execution (`TaskCoordinator._execute_task_workflow`)

The per-task delegation (`_execute_task_impl` inside `_execute_task_batch`)
is abstracted by a function `exec : TaskSpecification → ExecutionResult`:
`_execute_task_batch` already converts every raised exception into a failed
`ExecutionResult`, so each task deterministically yields one result. -/

/-- The early-stop test of `_execute_task_workflow`:
`any(not r.is_successful and task.priority == CRITICAL for r, task in
zip(batch_results, task_batch, strict=False))`. -/
def criticalFailureInBatch (results : List ExecutionResult)
    (batch : List TaskSpecification) : Bool :=
  (results.zip batch).any
    (fun p => !p.1.isSuccessful && decide (p.2.priority = TaskPriority.critical))

/-- The batch loop of `_execute_task_workflow`: execute each batch, extend the
collected results, and break out of the loop after a batch containing a
failed CRITICAL task. -/
def runBatches (exec : TaskSpecification → ExecutionResult) :
    List (List TaskSpecification) → List ExecutionResult
  | [] => []
  | batch :: rest =>
    let batchResults := batch.map exec
    if criticalFailureInBatch batchResults batch then batchResults
    else batchResults ++ runBatches exec rest

/-- Embedding of `TaskCoordinator._execute_task_workflow`: priority-sort the
tasks, batch them, then run the batch loop. -/
def executeTaskWorkflow (exec : TaskSpecification → ExecutionResult)
    (tasks : List TaskSpecification) : List ExecutionResult :=
  runBatches exec (createTaskBatches (sortTasksByPriority tasks))

theorem runBatches_cons_clean (exec : TaskSpecification → ExecutionResult)
    (batch : List TaskSpecification) (rest : List (List TaskSpecification))
    (hbatch : criticalFailureInBatch (batch.map exec) batch = false) :
    runBatches exec (batch :: rest) = batch.map exec ++ runBatches exec rest := by
  show (if criticalFailureInBatch (batch.map exec) batch = true
      then batch.map exec else batch.map exec ++ runBatches exec rest) =
    batch.map exec ++ runBatches exec rest
  rw [hbatch]
  simp

theorem runBatches_stop (exec : TaskSpecification → ExecutionResult) :
    ∀ (bs₁ : List (List TaskSpecification)) (b : List TaskSpecification)
      (bs₂ : List (List TaskSpecification)),
      (∀ batch ∈ bs₁, criticalFailureInBatch (batch.map exec) batch = false) →
      criticalFailureInBatch (b.map exec) b = true →
      runBatches exec (bs₁ ++ b :: bs₂) =
        ((bs₁ ++ [b]).map (fun batch => batch.map exec)).flatten := by
  intro bs₁
  induction bs₁ with
  | nil =>
    intro b bs₂ _ hb
    simp only [List.nil_append, List.map_cons, List.map_nil, List.flatten_cons,
      List.flatten_nil, List.append_nil]
    show (if criticalFailureInBatch (b.map exec) b = true
        then b.map exec else b.map exec ++ runBatches exec bs₂) = b.map exec
    rw [hb]
    simp
  | cons batch rest ih =>
    intro b bs₂ hclean hb
    have hbatch : criticalFailureInBatch (batch.map exec) batch = false :=
      hclean batch (List.mem_cons_self batch rest)
    have hrest : ∀ c ∈ rest, criticalFailureInBatch (c.map exec) c = false :=
      fun c hc => hclean c (List.mem_cons_of_mem batch hc)
    rw [List.cons_append, runBatches_cons_clean exec batch _ hbatch, ih b bs₂ hrest hb]
    simp

theorem runBatches_no_stop (exec : TaskSpecification → ExecutionResult) :
    ∀ bs : List (List TaskSpecification),
      (∀ batch ∈ bs, criticalFailureInBatch (batch.map exec) batch = false) →
      runBatches exec bs = (bs.map (fun batch => batch.map exec)).flatten := by
  intro bs
  induction bs with
  | nil => intro _; rfl
  | cons batch rest ih =>
    intro hclean
    have hbatch : criticalFailureInBatch (batch.map exec) batch = false :=
      hclean batch (List.mem_cons_self batch rest)
    rw [runBatches_cons_clean exec batch rest hbatch,
      ih (fun c hc => hclean c (List.mem_cons_of_mem batch hc))]
    simp

/-- C4: in the task workflow, if the batch sequence splits as
`bs₁ ++ b :: bs₂` where no batch of `bs₁` contains a failed CRITICAL task and
`b` does, then the workflow returns exactly the results of `bs₁ ++ [b]` —
every result collected so far, error strings included, and nothing from any
later batch; and if no batch contains a failed CRITICAL task (in particular
when only non-CRITICAL tasks fail), every batch is executed. -/
theorem executeTaskWorkflow_criticalStop (exec : TaskSpecification → ExecutionResult)
    (tasks : List TaskSpecification) :
    (∀ (bs₁ : List (List TaskSpecification)) (b : List TaskSpecification)
        (bs₂ : List (List TaskSpecification)),
      createTaskBatches (sortTasksByPriority tasks) = bs₁ ++ b :: bs₂ →
      (∀ batch ∈ bs₁, criticalFailureInBatch (batch.map exec) batch = false) →
      criticalFailureInBatch (b.map exec) b = true →
      executeTaskWorkflow exec tasks =
        ((bs₁ ++ [b]).map (fun batch => batch.map exec)).flatten) ∧
    ((∀ batch ∈ createTaskBatches (sortTasksByPriority tasks),
        criticalFailureInBatch (batch.map exec) batch = false) →
      executeTaskWorkflow exec tasks =
        ((createTaskBatches (sortTasksByPriority tasks)).map
          (fun batch => batch.map exec)).flatten) := by
  constructor
  · intro bs₁ b bs₂ hsplit hclean hb
    unfold executeTaskWorkflow
    rw [hsplit]
    exact runBatches_stop exec bs₁ b bs₂ hclean hb
  · intro hclean
    unfold executeTaskWorkflow
    exact runBatches_no_stop exec _ hclean

/-- Failing execution oracle for the C4 witness. -/
def cexFailExec : TaskSpecification → ExecutionResult :=
  fun _ => ExecutionResult.failureR ["boom"]

/-- C4 witness: with the two-task input `[validation (CRITICAL), coding]` and
an oracle failing every task, the batches are `[[validation, coding]]`, the
first (and only) batch contains a failed CRITICAL task, and the workflow
returns exactly that batch's results. -/
theorem executeTaskWorkflow_criticalStop_witness :
    createTaskBatches (sortTasksByPriority [cexValidationTask, cexCodingTask]) =
      [[cexValidationTask, cexCodingTask]] ∧
    criticalFailureInBatch ([cexValidationTask, cexCodingTask].map cexFailExec)
      [cexValidationTask, cexCodingTask] = true ∧
    executeTaskWorkflow cexFailExec [cexValidationTask, cexCodingTask] =
      ([[cexValidationTask, cexCodingTask]].map
        (fun batch => batch.map cexFailExec)).flatten := by
  refine ⟨rfl, rfl, ?_⟩
  exact (executeTaskWorkflow_criticalStop cexFailExec
    [cexValidationTask, cexCodingTask]).1 [] [cexValidationTask, cexCodingTask] []
    rfl (fun batch h => absurd h (List.not_mem_nil batch)) rfl

/-! ## Awaiting a delegated result (`TaskCoordinator._wait_for_task_result`)

The loop polls once per second; each iteration reads
`self.task_assignments.get(task_id)` and, when that agent id is present in
`self.available_agents`, the agent's registry record.  The chained lookups
are abstracted as `lookup : Nat → Option (String × AgentStatus)` giving, at
each poll tick, the assigned agent's id and registry status when both dict
lookups succeed.  The timeout in seconds bounds the number of polls. -/

/-- One-second poll loop of `_wait_for_task_result`, with the current tick and
the remaining poll budget explicit. -/
def waitLoop (taskId : String) (lookup : Nat → Option (String × AgentStatus)) :
    Nat → Nat → ExecutionResult
  | _, 0 => ExecutionResult.failureR ["Task " ++ taskId ++ " timed out"]
  | tick, remaining + 1 =>
    match lookup tick with
    | some (agentId, status) =>
      if status = AgentStatus.idle then
        ExecutionResult.successR
          [("task_id", taskId), ("agent_id", agentId), ("status", "completed")]
      else waitLoop taskId lookup (tick + 1) remaining
    | none => waitLoop taskId lookup (tick + 1) remaining

/-- Embedding of `TaskCoordinator._wait_for_task_result` (timeout in seconds,
default 300). -/
def waitForTaskResult (taskId : String)
    (lookup : Nat → Option (String × AgentStatus)) (timeout : Nat) : ExecutionResult :=
  waitLoop taskId lookup 0 timeout

/-- Does the poll at tick `t` observe the assigned agent back at IDLE? -/
def idleSignal (lookup : Nat → Option (String × AgentStatus)) (t : Nat) : Bool :=
  match lookup t with
  | some (_, status) => status = AgentStatus.idle
  | none => false

theorem waitLoop_succ (taskId : String)
    (lookup : Nat → Option (String × AgentStatus)) (tick n : Nat) :
    waitLoop taskId lookup tick (n + 1) =
      match lookup tick with
      | some (agentId, status) =>
        if status = AgentStatus.idle then
          ExecutionResult.successR
            [("task_id", taskId), ("agent_id", agentId), ("status", "completed")]
        else waitLoop taskId lookup (tick + 1) n
      | none => waitLoop taskId lookup (tick + 1) n := rfl

theorem waitLoop_step_quiet (taskId : String)
    (lookup : Nat → Option (String × AgentStatus)) (tick n : Nat)
    (hq : idleSignal lookup tick = false) :
    waitLoop taskId lookup tick (n + 1) = waitLoop taskId lookup (tick + 1) n := by
  rw [waitLoop_succ]
  cases hl : lookup tick with
  | none => rfl
  | some pair =>
    obtain ⟨aid, status⟩ := pair
    have hstatus : status ≠ AgentStatus.idle := by
      intro hs
      subst hs
      rw [show idleSignal lookup tick = true from by simp [idleSignal, hl]] at hq
      exact Bool.noConfusion hq
    exact if_neg hstatus

theorem waitLoop_step_idle (taskId : String)
    (lookup : Nat → Option (String × AgentStatus)) (tick n : Nat) (agentId : String)
    (hl : lookup tick = some (agentId, AgentStatus.idle)) :
    waitLoop taskId lookup tick (n + 1) =
      ExecutionResult.successR
        [("task_id", taskId), ("agent_id", agentId), ("status", "completed")] := by
  rw [waitLoop_succ, hl]
  exact rfl

theorem waitLoop_timeout (taskId : String)
    (lookup : Nat → Option (String × AgentStatus)) :
    ∀ (remaining tick : Nat),
      (∀ t, tick ≤ t → t < tick + remaining → idleSignal lookup t = false) →
      waitLoop taskId lookup tick remaining =
        ExecutionResult.failureR ["Task " ++ taskId ++ " timed out"] := by
  intro remaining
  induction remaining with
  | zero => intro tick _; rfl
  | succ n ih =>
    intro tick hquiet
    rw [waitLoop_step_quiet taskId lookup tick n
      (hquiet tick (Nat.le_refl tick) (by omega))]
    exact ih (tick + 1) (fun t ht1 ht2 => hquiet t (by omega) (by omega))

theorem waitLoop_success (taskId : String)
    (lookup : Nat → Option (String × AgentStatus)) :
    ∀ (remaining tick t : Nat) (agentId : String),
      tick ≤ t → t < tick + remaining →
      (∀ u, tick ≤ u → u < t → idleSignal lookup u = false) →
      lookup t = some (agentId, AgentStatus.idle) →
      waitLoop taskId lookup tick remaining =
        ExecutionResult.successR
          [("task_id", taskId), ("agent_id", agentId), ("status", "completed")] := by
  intro remaining
  induction remaining with
  | zero => intro tick t agentId h1 h2 _ _; omega
  | succ n ih =>
    intro tick t agentId h1 h2 hquiet hfound
    by_cases heq : tick = t
    · subst heq
      exact waitLoop_step_idle taskId lookup tick n agentId hfound
    · have htickt : tick < t := Nat.lt_of_le_of_ne h1 heq
      rw [waitLoop_step_quiet taskId lookup tick n
        (hquiet tick (Nat.le_refl tick) htickt)]
      exact ih (tick + 1) t agentId (by omega) (by omega)
        (fun u hu1 hu2 => hquiet u (by omega) hu2) hfound

/-- C5: awaiting a delegated task's result.  If the first poll tick `t` at
which the assigned agent's registry status reads IDLE comes before the
timeout, the coordinator returns a success ExecutionResult whose output
references the task id and the agent id; if no poll within the timeout
observes IDLE, it returns a failure ExecutionResult whose single error string
is `"Task " ++ taskId ++ " timed out"` — which contains the task id and the
text "timed out" as substrings. -/
theorem waitForTaskResult_spec (taskId : String)
    (lookup : Nat → Option (String × AgentStatus)) (timeout : Nat) :
    ((∀ t, t < timeout → idleSignal lookup t = false) →
      waitForTaskResult taskId lookup timeout =
        ExecutionResult.failureR ["Task " ++ taskId ++ " timed out"] ∧
      (waitForTaskResult taskId lookup timeout).isSuccessful = false ∧
      ∀ e ∈ (waitForTaskResult taskId lookup timeout).errors,
        taskId.toList <:+: e.toList ∧ "timed out".toList <:+: e.toList) ∧
    (∀ t agentId, t < timeout →
      (∀ u, u < t → idleSignal lookup u = false) →
      lookup t = some (agentId, AgentStatus.idle) →
      waitForTaskResult taskId lookup timeout =
        ExecutionResult.successR
          [("task_id", taskId), ("agent_id", agentId), ("status", "completed")]) := by
  constructor
  · intro hquiet
    have heq : waitForTaskResult taskId lookup timeout =
        ExecutionResult.failureR ["Task " ++ taskId ++ " timed out"] :=
      waitLoop_timeout taskId lookup timeout 0
        (fun t _ ht => hquiet t (by omega))
    refine ⟨heq, by rw [heq]; rfl, ?_⟩
    intro e he
    rw [heq] at he
    have he2 : e ∈ ["Task " ++ taskId ++ " timed out"] := he
    have he' : e = "Task " ++ taskId ++ " timed out" := List.mem_singleton.mp he2
    subst he'
    constructor
    · refine ⟨"Task ".toList, " timed out".toList, ?_⟩
      simp [String.toList]
    · refine ⟨"Task ".toList ++ taskId.toList ++ [' '], [], ?_⟩
      simp only [String.toList, String.data_append, List.append_nil, List.append_assoc]
      congr 1
  · intro t agentId ht hquiet hfound
    exact waitLoop_success taskId lookup timeout 0 t agentId (Nat.zero_le t)
      (by omega) (fun u _ hu => hquiet u hu) hfound

/-- Registry signal for the C5 witness: the assigned agent `a1` stays BUSY
forever (scenario: 2-second timeout against an agent that never returns to
IDLE), and a second signal where it turns IDLE at tick 1. -/
def cexBusyLookup : Nat → Option (String × AgentStatus) :=
  fun _ => some ("a1", AgentStatus.busy)

/-- Registry signal for the C5 witness success case: IDLE from tick 1 on. -/
def cexIdleAt1Lookup : Nat → Option (String × AgentStatus) :=
  fun t => if t = 0 then some ("a1", AgentStatus.busy) else some ("a1", AgentStatus.idle)

/-- C5 witness: both branches of the claim instantiated concretely — a
2-second timeout against an always-BUSY agent yields the timed-out failure,
and an agent turning IDLE at tick 1 yields the success result referencing the
task and agent ids. -/
theorem waitForTaskResult_spec_witness :
    (waitForTaskResult "task-42" cexBusyLookup 2 =
      ExecutionResult.failureR ["Task " ++ "task-42" ++ " timed out"]) ∧
    (waitForTaskResult "task-42" cexIdleAt1Lookup 2 =
      ExecutionResult.successR
        [("task_id", "task-42"), ("agent_id", "a1"), ("status", "completed")]) := by
  constructor
  · exact ((waitForTaskResult_spec "task-42" cexBusyLookup 2).1
      (fun t _ => rfl)).1
  · exact (waitForTaskResult_spec "task-42" cexIdleAt1Lookup 2).2 1 "a1"
      (by omega) (fun u hu => by
        have hu0 : u = 0 := by omega
        subst hu0
        rfl) rfl

/-! ## Task assignment (`TaskCoordinator._assign_task_to_agent` and
`TaskCoordinator._execute_task_impl`)

`self.available_agents` (a dict `agent_id → AgentInfo`, iterated in insertion
order) is embedded as an association list, and `self.task_assignments`
(a dict `task_id → agent_id`) likewise; a dict write is embedded as a
front-insertion, with reads through `find?` (first match), which gives the
same `.get` semantics. -/

/-- Coordinator-side mutable state touched by assignment. -/
structure CoordinatorState where
  availableAgents : List (String × AgentInfo)
  taskAssignments : List (String × String)
deriving Repr

/-- The `role_preferences` dict of `TaskCoordinator.__init__`, read through
`.get(task_type, [])`. -/
def rolePreferences : String → List String
  | "planning" => ["planner", "architect"]
  | "coding" => ["coder", "developer", "programmer"]
  | "testing" => ["tester", "qa", "validator"]
  | "review" => ["reviewer", "auditor", "quality_assurance"]
  | "deployment" => ["devops", "deployment", "infrastructure"]
  | "integration" => ["integrator", "merger", "coordinator"]
  | _ => []

/-- First scan of `_assign_task_to_agent`: IDLE agents whose role matches a
preferred role (`not preferred_roles or agent_info.role.lower() in
preferred_roles`). -/
def idleMatchFilter (agents : List (String × AgentInfo)) (preferredRoles : List String) :
    List (String × AgentInfo) :=
  agents.filter (fun p =>
    decide (p.2.status = AgentStatus.idle) &&
      (preferredRoles.isEmpty || preferredRoles.contains (strToLower p.2.role)))

/-- Fallback scan of `_assign_task_to_agent`: any IDLE agent. -/
def idleFilter (agents : List (String × AgentInfo)) : List (String × AgentInfo) :=
  agents.filter (fun p => decide (p.2.status = AgentStatus.idle))

/-- The `suitable_agents` list after both scans of `_assign_task_to_agent`. -/
def suitableAgents (agents : List (String × AgentInfo)) (preferredRoles : List String) :
    List (String × AgentInfo) :=
  if (idleMatchFilter agents preferredRoles).isEmpty then idleFilter agents
  else idleMatchFilter agents preferredRoles

/-- Record update performed on the chosen agent: mark BUSY and set
`current_task = task.id`. -/
def markBusy (taskId : String) (a : AgentInfo) : AgentInfo :=
  { a with status := AgentStatus.busy, currentTask := some taskId }

/-- State mutation on successful assignment: mark the chosen agent BUSY with
`current_task = task.id` and record the `task_id → agent_id` mapping. -/
def applyAssignment (st : CoordinatorState) (task : TaskSpecification)
    (chosenId : String) : CoordinatorState :=
  { availableAgents := st.availableAgents.map (fun p =>
      if p.1 = chosenId then (p.1, markBusy task.id p.2) else p)
    taskAssignments := (task.id, chosenId) :: st.taskAssignments }

/-- Embedding of `TaskCoordinator._assign_task_to_agent`: returns the chosen
agent id (`None` when no suitable agent exists) and the updated state. -/
def assignTaskToAgent (st : CoordinatorState) (task : TaskSpecification) :
    Option String × CoordinatorState :=
  match suitableAgents st.availableAgents
      (rolePreferences (task.metaTaskType.getD "general")) with
  | [] => (none, st)
  | (chosenId, _) :: _ => (some chosenId, applyAssignment st task chosenId)

/-- Embedding of `TaskCoordinator._execute_task_impl`, with the
delegate-and-await step (`_delegate_task_to_agent`) abstracted as `delegate`
(its exceptions are caught by the surrounding `try` and already yield a
failure result, so it is total here). -/
def executeTaskImpl (delegate : String → TaskSpecification → ExecutionResult)
    (st : CoordinatorState) (task : TaskSpecification) :
    ExecutionResult × CoordinatorState :=
  match assignTaskToAgent st task with
  | (none, st') =>
    (ExecutionResult.failureR ["No suitable agent found for task: " ++ task.title], st')
  | (some agentId, st') => (delegate agentId task, st')

/-- Registry read `self.available_agents.get(agent_id)`. -/
def lookupAgent (st : CoordinatorState) (agentId : String) : Option AgentInfo :=
  (st.availableAgents.find? (fun p => decide (p.1 = agentId))).map (fun p => p.2)

/-- Assignment-table read `self.task_assignments.get(task_id)`. -/
def lookupAssignment (st : CoordinatorState) (taskId : String) : Option String :=
  (st.taskAssignments.find? (fun p => decide (p.1 = taskId))).map (fun p => p.2)

theorem mem_of_mem_suitableAgents (agents : List (String × AgentInfo))
    (preferredRoles : List String) (p : String × AgentInfo)
    (hp : p ∈ suitableAgents agents preferredRoles) :
    p ∈ agents ∧ p.2.status = AgentStatus.idle := by
  unfold suitableAgents at hp
  by_cases hempty : (idleMatchFilter agents preferredRoles).isEmpty
  · rw [if_pos hempty] at hp
    unfold idleFilter at hp
    have := List.mem_filter.mp hp
    exact ⟨this.1, of_decide_eq_true this.2⟩
  · rw [if_neg hempty] at hp
    unfold idleMatchFilter at hp
    have h2 := List.mem_filter.mp hp
    refine ⟨h2.1, ?_⟩
    have h3 := h2.2
    simp only [Bool.and_eq_true, decide_eq_true_eq] at h3
    exact h3.1

theorem suitableAgents_ne_nil (agents : List (String × AgentInfo))
    (preferredRoles : List String) (q : String × AgentInfo)
    (hq : q ∈ agents) (hidle : q.2.status = AgentStatus.idle) :
    suitableAgents agents preferredRoles ≠ [] := by
  unfold suitableAgents
  by_cases hempty : (idleMatchFilter agents preferredRoles).isEmpty
  · rw [if_pos hempty]
    have hqmem : q ∈ idleFilter agents := by
      unfold idleFilter
      exact List.mem_filter.mpr ⟨hq, decide_eq_true hidle⟩
    exact List.ne_nil_of_mem hqmem
  · rw [if_neg hempty]
    intro hnil
    rw [hnil] at hempty
    exact hempty rfl

theorem find?_map_update (l : List (String × AgentInfo)) (k : String)
    (f : AgentInfo → AgentInfo) :
    (l.map (fun p => if p.1 = k then (p.1, f p.2) else p)).find?
        (fun p => decide (p.1 = k)) =
      (l.find? (fun p => decide (p.1 = k))).map
        (fun p => (p.1, f p.2)) := by
  induction l with
  | nil => rfl
  | cons q l ih =>
    by_cases hq : q.1 = k
    · simp [List.find?_cons, hq]
    · simp [List.find?_cons, hq, ih]

/-- C6: task assignment.  (a) If no IDLE agent's lowercased role is among the
task type's preferred roles but some IDLE agent exists, assignment still
chooses an agent, and the chosen agent was an IDLE member of the registry
(the fallback).  (b) If no IDLE agent exists at all, assignment returns none
and `_execute_task_impl` returns the deterministic failure ExecutionResult,
whatever the delegation behaviour.  (c) Whenever assignment chooses agent
`aid`, in the updated state that agent's record is BUSY with
`current_task = task.id`, and the `task_id → agent_id` table maps `task.id`
to `aid`. -/
theorem assignTaskToAgent_spec (st : CoordinatorState) (task : TaskSpecification) :
    ((∀ p ∈ st.availableAgents, p.2.status = AgentStatus.idle →
        (strToLower p.2.role) ∉ rolePreferences (task.metaTaskType.getD "general")) →
      (∃ q ∈ st.availableAgents, q.2.status = AgentStatus.idle) →
      ∃ aid info, (assignTaskToAgent st task).1 = some aid ∧
        (aid, info) ∈ st.availableAgents ∧ info.status = AgentStatus.idle) ∧
    ((∀ p ∈ st.availableAgents, p.2.status ≠ AgentStatus.idle) →
      (assignTaskToAgent st task).1 = none ∧
      ∀ delegate, (executeTaskImpl delegate st task).1 =
        ExecutionResult.failureR ["No suitable agent found for task: " ++ task.title]) ∧
    (∀ aid, (assignTaskToAgent st task).1 = some aid →
      (∃ info, lookupAgent (assignTaskToAgent st task).2 aid = some info ∧
        info.status = AgentStatus.busy ∧ info.currentTask = some task.id) ∧
      lookupAssignment (assignTaskToAgent st task).2 task.id = some aid) := by
  refine ⟨?_, ?_, ?_⟩
  · intro _ hex
    obtain ⟨q, hq, hidle⟩ := hex
    have hnn : suitableAgents st.availableAgents
        (rolePreferences (task.metaTaskType.getD "general")) ≠ [] :=
      suitableAgents_ne_nil _ _ q hq hidle
    unfold assignTaskToAgent
    cases hs : suitableAgents st.availableAgents
        (rolePreferences (task.metaTaskType.getD "general")) with
    | nil => exact absurd hs hnn
    | cons c rest =>
      obtain ⟨cid, cinfo⟩ := c
      have hc : ((cid, cinfo) : String × AgentInfo) ∈ suitableAgents st.availableAgents
          (rolePreferences (task.metaTaskType.getD "general")) := by
        rw [hs]; exact List.mem_cons_self _ _
      have := mem_of_mem_suitableAgents _ _ _ hc
      exact ⟨cid, cinfo, rfl, this.1, this.2⟩
  · intro hnone
    have hempty : suitableAgents st.availableAgents
        (rolePreferences (task.metaTaskType.getD "general")) = [] := by
      cases hs : suitableAgents st.availableAgents
          (rolePreferences (task.metaTaskType.getD "general")) with
      | nil => rfl
      | cons c rest =>
        have hc : c ∈ suitableAgents st.availableAgents
            (rolePreferences (task.metaTaskType.getD "general")) := by
          rw [hs]; exact List.mem_cons_self _ _
        have := mem_of_mem_suitableAgents _ _ _ hc
        exact absurd this.2 (hnone c this.1)
    constructor
    · unfold assignTaskToAgent
      rw [hempty]
    · intro delegate
      unfold executeTaskImpl
      have hassign : assignTaskToAgent st task = (none, st) := by
        unfold assignTaskToAgent
        rw [hempty]
      rw [hassign]
  · intro aid hsome
    have hmem : ∃ info, ((aid, info) : String × AgentInfo) ∈ st.availableAgents ∧
        (assignTaskToAgent st task).2 = applyAssignment st task aid := by
      unfold assignTaskToAgent at hsome ⊢
      cases hs : suitableAgents st.availableAgents
          (rolePreferences (task.metaTaskType.getD "general")) with
      | nil => rw [hs] at hsome; exact absurd hsome (by simp)
      | cons c rest =>
        obtain ⟨cid, cinfo⟩ := c
        rw [hs] at hsome
        have hcid : cid = aid := by
          have : some cid = some aid := hsome
          exact Option.some.inj this
        subst hcid
        have hc : ((cid, cinfo) : String × AgentInfo) ∈ suitableAgents st.availableAgents
            (rolePreferences (task.metaTaskType.getD "general")) := by
          rw [hs]; exact List.mem_cons_self _ _
        have := mem_of_mem_suitableAgents _ _ _ hc
        exact ⟨cinfo, this.1, rfl⟩
    obtain ⟨info0, hmem0, hst2⟩ := hmem
    rw [hst2]
    constructor
    · unfold lookupAgent applyAssignment
      rw [find?_map_update st.availableAgents aid (markBusy task.id)]
      have hfind : (st.availableAgents.find? (fun p => decide (p.1 = aid))).isSome := by
        rw [List.find?_isSome]
        exact ⟨(aid, info0), hmem0, by simp⟩
      obtain ⟨q, hq⟩ := Option.isSome_iff_exists.mp hfind
      rw [hq]
      exact ⟨markBusy task.id q.2, rfl, rfl, rfl⟩
    · unfold lookupAssignment applyAssignment
      simp

/-- Concrete registry for the C6 witness: one IDLE agent whose role matches
no preference list, plus one BUSY agent; and a coding-type task. -/
def cexRegistryState : CoordinatorState :=
  { availableAgents :=
      [("a1", { id := "a1", name := "Helper", role := "helper",
                status := AgentStatus.busy, currentTask := some "t0" }),
       ("a2", { id := "a2", name := "Scribe", role := "scribe",
                status := AgentStatus.idle, currentTask := none })]
    taskAssignments := [] }

/-- Registry with no IDLE agent, for the C6 witness failure branch. -/
def cexBusyRegistryState : CoordinatorState :=
  { availableAgents :=
      [("a1", { id := "a1", name := "Helper", role := "helper",
                status := AgentStatus.busy, currentTask := some "t0" })]
    taskAssignments := [] }

/-- Coding-type task for the C6 witness. -/
def cexAssignTask : TaskSpecification :=
  { emptyTask with id := "t9", title := "Step 2: build", metaTaskType := some "coding" }

/-- C6 witness: all three branches of the claim instantiated concretely — the
fallback finds the IDLE non-matching agent `a2`; the all-BUSY registry makes
assignment fail and `_execute_task_impl` return the failure result; and on
success the chosen agent is BUSY with the task recorded. -/
theorem assignTaskToAgent_spec_witness :
    (∃ aid info, (assignTaskToAgent cexRegistryState cexAssignTask).1 = some aid ∧
      (aid, info) ∈ cexRegistryState.availableAgents ∧
      info.status = AgentStatus.idle) ∧
    ((assignTaskToAgent cexBusyRegistryState cexAssignTask).1 = none ∧
      ∀ delegate, (executeTaskImpl delegate cexBusyRegistryState cexAssignTask).1 =
        ExecutionResult.failureR
          ["No suitable agent found for task: " ++ cexAssignTask.title]) ∧
    ((∃ info, lookupAgent (assignTaskToAgent cexRegistryState cexAssignTask).2 "a2" =
        some info ∧ info.status = AgentStatus.busy ∧
        info.currentTask = some cexAssignTask.id) ∧
      lookupAssignment (assignTaskToAgent cexRegistryState cexAssignTask).2
        cexAssignTask.id = some "a2") := by
  refine ⟨?_, ?_, ?_⟩
  · refine (assignTaskToAgent_spec cexRegistryState cexAssignTask).1 ?_ ?_
    · intro p hp hidle
      have hp2 : p = (("a1", { id := "a1", name := "Helper", role := "helper", status := AgentStatus.busy, currentTask := some "t0" }) : String × AgentInfo) ∨ p = (("a2", { id := "a2", name := "Scribe", role := "scribe", status := AgentStatus.idle, currentTask := none }) : String × AgentInfo) := by
        simpa [cexRegistryState] using hp
      rcases hp2 with h | h
      · rw [h] at hidle
        exact absurd hidle (by decide)
      · rw [h]
        show (strToLower "scribe") ∉ rolePreferences "coding"
        rw [show (strToLower "scribe") = "scribe" from rfl]
        decide
    · refine ⟨(("a2", { id := "a2", name := "Scribe", role := "scribe", status := AgentStatus.idle, currentTask := none }) : String × AgentInfo), ?_, rfl⟩
      simp [cexRegistryState]
  · exact (assignTaskToAgent_spec cexBusyRegistryState cexAssignTask).2.1 (by decide)
  · exact (assignTaskToAgent_spec cexRegistryState cexAssignTask).2.2 "a2" rfl

/-! ## PRP validation (`AgentPRPProcessor.validate_prp` and
`AgentPRPProcessor.execute_prp_with_agent` in
`src/agent_factory/workflows/prp_engine.py`)

The returned validation dict also carries `quality_score` and `completeness`
entries; no verified property reads them, so only the `is_valid` flag and the
`errors` list are embedded. -/

/-- Validation report: the `is_valid` and `errors` entries of the dict
returned by `validate_prp`. -/
structure ValidationReport where
  isValid : Bool
  errors : List String
deriving DecidableEq, Repr

/-- The `vague_keywords` list of `validate_prp`. -/
def vagueKeywords : List String := ["somehow", "maybe", "possibly", "perhaps"]

/-- The `for i, step in enumerate(prp.implementation_steps)` vagueness loop of
`validate_prp`, started at index `i`. -/
def vagueStepErrors : Nat → List String → List String
  | _, [] => []
  | i, step :: rest =>
    if vagueKeywords.any (fun k => strContains (strToLower step) k) then
      ("Implementation step " ++ toString (i + 1) ++ " is too vague: " ++ step) ::
        vagueStepErrors (i + 1) rest
    else vagueStepErrors (i + 1) rest

/-- The `errors` list accumulated by `validate_prp`, in source order. -/
def validationErrors (prp : AgentPRP) : List String :=
  (if prp.goal = "" then ["PRP must have a goal"] else []) ++
  (if prp.justification = "" then ["PRP must have justification"] else []) ++
  (if prp.implementationSteps.isEmpty then ["PRP must have implementation steps"] else []) ++
  (if prp.validationCriteria.isEmpty then ["PRP must have validation criteria"] else []) ++
  (if prp.implementationSteps.length < 2 then
    ["PRP should have at least 2 implementation steps"] else []) ++
  vagueStepErrors 0 prp.implementationSteps

/-- Embedding of `AgentPRPProcessor.validate_prp`. -/
def validatePRP (prp : AgentPRP) : ValidationReport :=
  { isValid := (validationErrors prp).isEmpty, errors := validationErrors prp }

/-- Embedding of `AgentPRPProcessor.execute_prp_with_agent`: validate first;
on failure return the deterministic failure result; otherwise enhance the PRP
with knowledge-base context (abstracted as `enhance`) and run the agent
(abstracted as `agentRun`). -/
def executePRPWithAgent (enhance : AgentPRP → AgentPRP)
    (agentRun : AgentPRP → ExecutionResult) (prp : AgentPRP) : ExecutionResult :=
  if !(validatePRP prp).isValid then
    ExecutionResult.failureR
      ["PRP validation failed: " ++ String.intercalate "; " (validatePRP prp).errors]
  else agentRun (enhance prp)

theorem vagueStepErrors_ne_nil :
    ∀ (l : List String) (i : Nat),
      (∃ s ∈ l, (vagueKeywords.any (fun k => strContains (strToLower s) k)) = true) →
      vagueStepErrors i l ≠ [] := by
  intro l
  induction l with
  | nil =>
    intro i hex
    obtain ⟨s, hs, _⟩ := hex
    exact absurd hs (List.not_mem_nil s)
  | cons step rest ih =>
    intro i hex
    by_cases hstep : (vagueKeywords.any (fun k => strContains (strToLower step) k)) = true
    · unfold vagueStepErrors
      rw [if_pos hstep]
      exact List.cons_ne_nil _ _
    · unfold vagueStepErrors
      rw [if_neg hstep]
      obtain ⟨s, hs, hvague⟩ := hex
      rcases List.mem_cons.mp hs with heq | hmem
      · subst heq
        exact absurd hvague hstep
      · exact ih (i + 1) ⟨s, hmem, hvague⟩

theorem validationErrors_ne_nil (prp : AgentPRP)
    (hbad : prp.goal = "" ∨ prp.justification = "" ∨
      prp.implementationSteps = [] ∨ prp.validationCriteria = [] ∨
      prp.implementationSteps.length < 2 ∨
      ∃ step ∈ prp.implementationSteps,
        strContains (strToLower step) "maybe" = true ∨
        strContains (strToLower step) "somehow" = true) :
    validationErrors prp ≠ [] := by
  intro hnil
  unfold validationErrors at hnil
  simp only [List.append_eq_nil] at hnil
  obtain ⟨⟨⟨⟨⟨h1, h2⟩, h3⟩, h4⟩, h5⟩, h6⟩ := hnil
  rcases hbad with hb | hb | hb | hb | hb | hb
  · rw [if_pos hb] at h1
    exact List.noConfusion h1
  · rw [if_pos hb] at h2
    exact List.noConfusion h2
  · rw [if_pos (by rw [hb]; rfl)] at h3
    exact List.noConfusion h3
  · rw [if_pos (by rw [hb]; rfl)] at h4
    exact List.noConfusion h4
  · rw [if_pos hb] at h5
    exact List.noConfusion h5
  · obtain ⟨step, hmem, hkw⟩ := hb
    have hvague : (vagueKeywords.any (fun k => strContains (strToLower step) k)) = true := by
      rcases hkw with hk | hk
      · exact List.any_eq_true.mpr ⟨"maybe", by decide, hk⟩
      · exact List.any_eq_true.mpr ⟨"somehow", by decide, hk⟩
    exact vagueStepErrors_ne_nil prp.implementationSteps 0 ⟨step, hmem, hvague⟩ h6

/-- C8: a PRP that is missing a required field (goal, justification,
implementation steps, validation criteria), has fewer than two implementation
steps, or contains "maybe" or "somehow" in an implementation step, is
reported invalid with at least one error, and `execute_prp_with_agent`
returns the deterministic validation-failure ExecutionResult no matter what
the context-enhancement and agent-execution collaborators would do — so no
agent execution or scheduling occurs. -/
theorem validatePRP_rejects_bad (prp : AgentPRP)
    (hbad : prp.goal = "" ∨ prp.justification = "" ∨
      prp.implementationSteps = [] ∨ prp.validationCriteria = [] ∨
      prp.implementationSteps.length < 2 ∨
      ∃ step ∈ prp.implementationSteps,
        strContains (strToLower step) "maybe" = true ∨
        strContains (strToLower step) "somehow" = true) :
    (validatePRP prp).isValid = false ∧
    (validatePRP prp).errors ≠ [] ∧
    ∀ (enhance : AgentPRP → AgentPRP) (agentRun : AgentPRP → ExecutionResult),
      executePRPWithAgent enhance agentRun prp =
        ExecutionResult.failureR
          ["PRP validation failed: " ++
            String.intercalate "; " (validatePRP prp).errors] := by
  have herr : validationErrors prp ≠ [] := validationErrors_ne_nil prp hbad
  have hvalid : (validatePRP prp).isValid = false := by
    unfold validatePRP
    cases he : validationErrors prp with
    | nil => exact absurd he herr
    | cons a l => simp [he]
  refine ⟨hvalid, by unfold validatePRP; exact herr, ?_⟩
  intro enhance agentRun
  unfold executePRPWithAgent
  rw [hvalid]
  rfl

/-- Concrete invalid PRP for the C8 witness: vague second step ("maybe"). -/
def cexBadPrp : AgentPRP :=
  { goal := "ship feature"
    justification := "needed"
    implementationSteps := ["write the parser module", "maybe tune performance"]
    validationCriteria := ["v1"]
    successMetrics := []
    failureRecovery := [] }

/-- C8 witness: the vague-step PRP is rejected with `is_valid = false`, and a
concrete agent that would always succeed is never consulted. -/
theorem validatePRP_rejects_bad_witness :
    (cexBadPrp.goal = "" ∨ cexBadPrp.justification = "" ∨
      cexBadPrp.implementationSteps = [] ∨ cexBadPrp.validationCriteria = [] ∨
      cexBadPrp.implementationSteps.length < 2 ∨
      ∃ step ∈ cexBadPrp.implementationSteps,
        strContains (strToLower step) "maybe" = true ∨
        strContains (strToLower step) "somehow" = true) ∧
    (validatePRP cexBadPrp).isValid = false ∧
    executePRPWithAgent (fun p => p) (fun _ => ExecutionResult.successR []) cexBadPrp =
      ExecutionResult.failureR
        ["PRP validation failed: " ++
          String.intercalate "; " (validatePRP cexBadPrp).errors] := by
  refine ⟨by decide, ?_, ?_⟩
  · exact (validatePRP_rejects_bad cexBadPrp (by decide)).1
  · exact (validatePRP_rejects_bad cexBadPrp (by decide)).2.2
      (fun p => p) (fun _ => ExecutionResult.successR [])

/-! ## Worker message handling (`BaseAgent.handle_message` and
`BaseAgent._send_error_response` in `src/agent_factory/agents/base.py`)

The four registered handlers (`_handle_task_assignment`, etc.) are abstracted
as `handlers : MessageType → Option (...)`: `None` models a message type
absent from `self._message_handlers` (only a warning is logged), and a
handler either returns the list of messages it sends (`Except.ok`) or raises
(`Except.error`).  The id of the freshly constructed error message (a uuid)
is the supply `freshId`.  Sends are values `(recipient channel, message)`. -/

/-- Inter-agent message, from the `AgentMessage` dataclass in
`src/agent_factory/models.py` (payload embedded as string key-value pairs;
the timestamp is never read). -/
structure AgentMessage where
  id : String
  senderId : String
  recipientId : String
  messageType : MessageType
  payload : List (String × String)
  correlationId : Option String
deriving DecidableEq, Repr

/-- Embedding of `BaseAgent._send_error_response`: the ERROR message sent back
to the original sender. -/
def sendErrorResponse (selfId freshId : String) (orig : AgentMessage)
    (err : String) : String × AgentMessage :=
  (orig.senderId,
    { id := freshId
      senderId := selfId
      recipientId := orig.senderId
      messageType := MessageType.error
      payload := [("error", err), ("original_message_id", orig.id)]
      correlationId := orig.correlationId })

/-- Embedding of `BaseAgent.handle_message`: dispatch on the message type; a
raising handler is caught and answered with exactly one ERROR reply. -/
def handleMessage (selfId freshId : String)
    (handlers : MessageType → Option (AgentMessage → Except String (List (String × AgentMessage))))
    (msg : AgentMessage) : List (String × AgentMessage) :=
  match handlers msg.messageType with
  | none => []
  | some h =>
    match h msg with
    | Except.ok sent => sent
    | Except.error e => [sendErrorResponse selfId freshId msg e]

/-- C9: when the dispatched handler raises, `handle_message` returns normally
(the embedding is a total function — the exception is consumed) and the
original sender is sent exactly one ERROR message whose payload holds the
error text under `"error"` and the original message's id under
`"original_message_id"`, and whose `correlation_id` equals the original
message's `correlation_id`. -/
theorem handleMessage_error_spec (selfId freshId : String)
    (handlers : MessageType → Option (AgentMessage → Except String (List (String × AgentMessage))))
    (msg : AgentMessage)
    (h : AgentMessage → Except String (List (String × AgentMessage))) (e : String)
    (hh : handlers msg.messageType = some h) (he : h msg = Except.error e) :
    handleMessage selfId freshId handlers msg =
      [(msg.senderId,
        { id := freshId
          senderId := selfId
          recipientId := msg.senderId
          messageType := MessageType.error
          payload := [("error", e), ("original_message_id", msg.id)]
          correlationId := msg.correlationId })] ∧
    (handleMessage selfId freshId handlers msg).length = 1 ∧
    ∀ p ∈ handleMessage selfId freshId handlers msg,
      p.1 = msg.senderId ∧ p.2.messageType = MessageType.error ∧
      ("error", e) ∈ p.2.payload ∧
      ("original_message_id", msg.id) ∈ p.2.payload ∧
      p.2.correlationId = msg.correlationId := by
  have heq : handleMessage selfId freshId handlers msg =
      [sendErrorResponse selfId freshId msg e] := by
    unfold handleMessage
    rw [hh]
    show (match h msg with
      | Except.ok sent => sent
      | Except.error err => [sendErrorResponse selfId freshId msg err]) =
      [sendErrorResponse selfId freshId msg e]
    rw [he]
  refine ⟨heq, by rw [heq]; rfl, ?_⟩
  intro p hp
  rw [heq] at hp
  have hp' : p = sendErrorResponse selfId freshId msg e := List.mem_singleton.mp hp
  subst hp'
  refine ⟨rfl, rfl, ?_, ?_, rfl⟩
  · exact List.mem_cons_self _ _
  · exact List.mem_cons_of_mem _ (List.mem_cons_self _ _)

/-- Concrete raising handler table for the C9 witness: the TASK_ASSIGNMENT
handler raises. -/
def cexRaisingHandlers :
    MessageType → Option (AgentMessage → Except String (List (String × AgentMessage)))
  | MessageType.taskAssignment => some (fun _ => Except.error "boom")
  | _ => none

/-- Concrete inbound TASK_ASSIGNMENT message for the C9 witness. -/
def cexInboundMsg : AgentMessage :=
  { id := "m1"
    senderId := "coordinator"
    recipientId := "worker-1"
    messageType := MessageType.taskAssignment
    payload := [("task", "t1")]
    correlationId := some "t1" }

/-- C9 witness: the raising TASK_ASSIGNMENT handler produces exactly the one
ERROR reply to the coordinator, carrying the original message id and the
original correlation id. -/
theorem handleMessage_error_spec_witness :
    handleMessage "worker-1" "m2" cexRaisingHandlers cexInboundMsg =
      [("coordinator",
        { id := "m2"
          senderId := "worker-1"
          recipientId := "coordinator"
          messageType := MessageType.error
          payload := [("error", "boom"), ("original_message_id", "m1")]
          correlationId := some "t1" })] :=
  (handleMessage_error_spec "worker-1" "m2" cexRaisingHandlers cexInboundMsg
    (fun _ => Except.error "boom") "boom" rfl rfl).1

/-! ## Worker task execution (`BaseAgent.execute_task` in
`src/agent_factory/agents/base.py`)

`self._execute_task_impl` is abstracted as
`impl : TaskSpecification → Except String ExecutionResult`; `Except.error`
models a raised exception.  Status broadcasts (`_send_status_update`) are
side effects on the bus and are not part of the worker's own state. -/

/-- Response record, from the `AgentResponse` dataclass in
`src/agent_factory/models.py` (fields written by `execute_task`;
`execution_time` is wall-clock and is not modelled). -/
structure AgentResponse where
  agentId : String
  taskId : Option String
  success : Bool
  errorMessage : Option String
deriving DecidableEq, Repr

/-- Worker-side state touched by `execute_task`. -/
structure WorkerState where
  info : AgentInfo
  currentTask : Option TaskSpecification
  taskHistory : List AgentResponse
deriving Repr

/-- Embedding of `BaseAgent.execute_task`: set BUSY and the current task, run
the implementation, build the response (the raising path gives a failed
response carrying the exception text and does not extend the history), and in
all cases run the `finally` block resetting `current_task`,
`info.current_task` and `info.status = IDLE`. -/
def executeTask (impl : TaskSpecification → Except String ExecutionResult)
    (agentId : String) (st : WorkerState) (task : TaskSpecification) :
    WorkerState × AgentResponse :=
  let stBusy : WorkerState :=
    { info := { st.info with status := AgentStatus.busy, currentTask := some task.id }
      currentTask := some task
      taskHistory := st.taskHistory }
  match impl task with
  | Except.ok result =>
    let response : AgentResponse :=
      { agentId := agentId
        taskId := some task.id
        success := result.isSuccessful
        errorMessage :=
          if result.isSuccessful then none
          else some (String.intercalate "; " result.errors) }
    ({ info := { stBusy.info with status := AgentStatus.idle, currentTask := none }
       currentTask := none
       taskHistory := stBusy.taskHistory ++ [response] }, response)
  | Except.error e =>
    let response : AgentResponse :=
      { agentId := agentId
        taskId := some task.id
        success := false
        errorMessage := some e }
    ({ info := { stBusy.info with status := AgentStatus.idle, currentTask := none }
       currentTask := none
       taskHistory := stBusy.taskHistory }, response)

/-- C10: after `execute_task` returns — whether the implementation returned a
successful result, returned a failed result, or raised — the `finally` block
has reset the agent: `info.status` is IDLE (in particular neither BUSY nor
ERROR) and both `current_task` and `info.current_task` are `None`. -/
theorem executeTask_resets_state
    (impl : TaskSpecification → Except String ExecutionResult) (agentId : String)
    (st : WorkerState) (task : TaskSpecification) :
    (executeTask impl agentId st task).1.info.status = AgentStatus.idle ∧
    (executeTask impl agentId st task).1.info.currentTask = none ∧
    (executeTask impl agentId st task).1.currentTask = none := by
  cases himpl : impl task with
  | ok result => simp [executeTask, himpl]
  | error e => simp [executeTask, himpl]

/-! ## Dependency batching (`TaskCoordinator._coordinate_implementation_tasks`
in `src/agents/coordinator/task_coordinator.py`)

Planning-result tasks are dicts `{id, title, assigned_agent, dependencies}`.
`completed_tasks` is a Python set of ids, embedded as a duplicate-free list
read only through membership and size.  The unbounded `while` loop is given
explicit fuel; each iteration whose ready set is non-empty executes that
whole set and is recorded as one batch, paired with the completed set
observed just before it ran.  `_execute_tasks_parallel` only sends messages
and sleeps, so execution does not touch the scheduling state. -/

/-- A task dict of a planning result. -/
structure PlanTask where
  id : String
  title : String
  assignedAgent : String
  dependencies : List String
deriving DecidableEq, Repr

/-- The `task_dependencies` dict built by the first loop
(`task_dependencies[task["id"]] = task.get("dependencies", [])`); for a
duplicated id the last write wins. -/
def taskDependenciesLookup (tasks : List PlanTask) (i : String) : List String :=
  match tasks.reverse.find? (fun t => decide (t.id = i)) with
  | some t => t.dependencies
  | none => []

/-- The ready-set computation: tasks not yet completed whose every dependency
id is already in the completed set. -/
def readyTasks (tasks : List PlanTask) (completed : List String) : List PlanTask :=
  tasks.filter (fun t =>
    !(completed.contains t.id) &&
      (taskDependenciesLookup tasks t.id).all (fun d => completed.contains d))

/-- `completed_tasks.add(id)` on the set-as-list. -/
def insertCompleted (completed : List String) (i : String) : List String :=
  if completed.contains i then completed else completed ++ [i]

/-- Mark every task of an executed batch completed. -/
def markCompleted (completed : List String) (batch : List PlanTask) : List String :=
  batch.foldl (fun c t => insertCompleted c t.id) completed

/-- The `while len(completed_tasks) < len(tasks)` loop, with fuel.  An
iteration with an empty ready set executes nothing (the code sleeps and
retries). -/
def coordinationLoop (tasks : List PlanTask) :
    Nat → List String → List (List String × List PlanTask)
  | 0, _ => []
  | fuel + 1, completed =>
    if completed.length < tasks.length then
      if (readyTasks tasks completed).isEmpty then coordinationLoop tasks fuel completed
      else
        (completed, readyTasks tasks completed) ::
          coordinationLoop tasks fuel (markCompleted completed (readyTasks tasks completed))
    else []

/-- Embedding of `_coordinate_implementation_tasks`, started from the empty
completed set. -/
def coordinateImplementationTasks (tasks : List PlanTask) (fuel : Nat) :
    List (List String × List PlanTask) :=
  coordinationLoop tasks fuel []

/-- Kahn elimination: repeatedly remove every task whose dependencies all
point outside the remaining tasks; an acyclic graph empties. -/
def kahnStrip : Nat → List PlanTask → List PlanTask
  | 0, rem => rem
  | n + 1, rem =>
    let removable := rem.filter (fun t =>
      t.dependencies.all (fun d => !(rem.any (fun u => decide (u.id = d)))))
    if removable.isEmpty then rem
    else kahnStrip n
      (rem.filter (fun t => !(removable.any (fun u => decide (u.id = t.id)))))

/-- A planning result forms a valid DAG when its task ids are pairwise
distinct and the dependency relation is acyclic. -/
def validDAG (tasks : List PlanTask) : Prop :=
  (tasks.map PlanTask.id).Nodup ∧ kahnStrip tasks.length tasks = []

instance (tasks : List PlanTask) : Decidable (validDAG tasks) := by
  unfold validDAG
  infer_instance

theorem taskDependenciesLookup_eq (tasks : List PlanTask)
    (hnodup : (tasks.map PlanTask.id).Nodup) (t : PlanTask) (ht : t ∈ tasks) :
    taskDependenciesLookup tasks t.id = t.dependencies := by
  have hsome : (tasks.reverse.find? (fun w => decide (w.id = t.id))).isSome := by
    rw [List.find?_isSome]
    exact ⟨t, List.mem_reverse.mpr ht, by simp⟩
  obtain ⟨v, hv⟩ := Option.isSome_iff_exists.mp hsome
  have hvp := @List.find?_some PlanTask (fun w => decide (w.id = t.id)) v tasks.reverse hv
  have hvid : v.id = t.id := of_decide_eq_true hvp
  have hvmem : v ∈ tasks := List.mem_reverse.mp (List.mem_of_find?_eq_some hv)
  have hvt : v = t := List.inj_on_of_nodup_map hnodup hvmem ht hvid
  unfold taskDependenciesLookup
  rw [hv, hvt]

theorem subset_insertCompleted (c : List String) (i : String) :
    c ⊆ insertCompleted c i := by
  unfold insertCompleted
  by_cases h : c.contains i
  · rw [if_pos h]
    exact List.Subset.refl c
  · rw [if_neg h]
    exact List.subset_append_left c [i]

theorem mem_insertCompleted_self (c : List String) (i : String) :
    i ∈ insertCompleted c i := by
  unfold insertCompleted
  by_cases h : c.contains i
  · rw [if_pos h]
    exact List.mem_of_elem_eq_true h
  · rw [if_neg h]
    exact List.mem_append_right c (List.mem_singleton.mpr rfl)

theorem subset_markCompleted (batch : List PlanTask) :
    ∀ c : List String, c ⊆ markCompleted c batch := by
  induction batch with
  | nil => intro c; exact List.Subset.refl c
  | cons b bs ih =>
    intro c
    exact List.Subset.trans (subset_insertCompleted c b.id) (ih (insertCompleted c b.id))

theorem mem_markCompleted (batch : List PlanTask) :
    ∀ (c : List String) (t : PlanTask), t ∈ batch → t.id ∈ markCompleted c batch := by
  induction batch with
  | nil => intro c t ht; exact absurd ht (List.not_mem_nil t)
  | cons b bs ih =>
    intro c t ht
    rcases List.mem_cons.mp ht with heq | hmem
    · subst heq
      exact subset_markCompleted bs (insertCompleted c t.id)
        (mem_insertCompleted_self c t.id)
    · exact ih (insertCompleted c b.id) t hmem

theorem coordinationLoop_mem (tasks : List PlanTask) :
    ∀ (fuel : Nat) (completed : List String)
      (p : List String × List PlanTask),
      p ∈ coordinationLoop tasks fuel completed →
      completed ⊆ p.1 ∧ p.2 = readyTasks tasks p.1 := by
  intro fuel
  induction fuel with
  | zero => intro completed p hp; exact absurd hp (List.not_mem_nil p)
  | succ n ih =>
    intro completed p hp
    unfold coordinationLoop at hp
    by_cases hlen : completed.length < tasks.length
    · rw [if_pos hlen] at hp
      by_cases hready : (readyTasks tasks completed).isEmpty
      · rw [if_pos hready] at hp
        exact ih completed p hp
      · rw [if_neg hready] at hp
        rcases List.mem_cons.mp hp with heq | hmem
        · subst heq
          exact ⟨List.Subset.refl completed, rfl⟩
        · have := ih (markCompleted completed (readyTasks tasks completed)) p hmem
          exact ⟨List.Subset.trans
            (subset_markCompleted (readyTasks tasks completed) completed) this.1,
            this.2⟩
    · rw [if_neg hlen] at hp
      exact absurd hp (List.not_mem_nil p)

theorem mem_readyTasks (tasks : List PlanTask) (completed : List String)
    (t : PlanTask) (ht : t ∈ readyTasks tasks completed) :
    t ∈ tasks ∧ t.id ∉ completed ∧
      ∀ d ∈ taskDependenciesLookup tasks t.id, d ∈ completed := by
  unfold readyTasks at ht
  have h := List.mem_filter.mp ht
  have h2 := h.2
  rw [Bool.and_eq_true] at h2
  refine ⟨h.1, ?_, ?_⟩
  · intro hmem
    have hcont : completed.contains t.id = true := List.elem_eq_true_of_mem hmem
    rw [hcont] at h2
    exact Bool.noConfusion h2.1
  · intro d hd
    have hall := h2.2
    rw [List.all_eq_true] at hall
    exact List.mem_of_elem_eq_true (hall d hd)

theorem coordinationLoop_pairwise (tasks : List PlanTask) :
    ∀ (fuel : Nat) (completed : List String),
      List.Pairwise (fun p q => ∀ t ∈ p.2, ∀ u ∈ q.2, t.id ≠ u.id)
        (coordinationLoop tasks fuel completed) := by
  intro fuel
  induction fuel with
  | zero => intro completed; exact List.Pairwise.nil
  | succ n ih =>
    intro completed
    unfold coordinationLoop
    by_cases hlen : completed.length < tasks.length
    · rw [if_pos hlen]
      by_cases hready : (readyTasks tasks completed).isEmpty
      · rw [if_pos hready]
        exact ih completed
      · rw [if_neg hready]
        refine List.Pairwise.cons ?_
          (ih (markCompleted completed (readyTasks tasks completed)))
        intro q hq t htr u huq
        have hmem := coordinationLoop_mem tasks n
          (markCompleted completed (readyTasks tasks completed)) q hq
        have htin : t.id ∈ q.1 :=
          hmem.1 (mem_markCompleted (readyTasks tasks completed) completed t htr)
        have hunotin : u.id ∉ q.1 := by
          have := mem_readyTasks tasks q.1 u (hmem.2 ▸ huq)
          exact this.2.1
        intro hcontra
        rw [hcontra] at htin
        exact hunotin htin
    · rw [if_neg hlen]
      exact List.Pairwise.nil

/-- C1: for every planning result forming a valid DAG (pairwise-distinct task
ids, acyclic dependency relation), every ready batch executed by the
coordination loop contains only planning tasks that are not yet in the
completed set and whose every dependency id is already in the completed set
observed just before that batch; and no task appears in two batches (the
batches' task ids are pairwise disjoint). -/
theorem coordinateImplementationTasks_spec (tasks : List PlanTask) (fuel : Nat)
    (hdag : validDAG tasks) :
    (∀ p ∈ coordinateImplementationTasks tasks fuel, ∀ t ∈ p.2,
      t ∈ tasks ∧ t.id ∉ p.1 ∧ ∀ d ∈ t.dependencies, d ∈ p.1) ∧
    List.Pairwise (fun p q => ∀ t ∈ p.2, ∀ u ∈ q.2, t.id ≠ u.id)
      (coordinateImplementationTasks tasks fuel) := by
  constructor
  · intro p hp t ht
    have hchar := coordinationLoop_mem tasks fuel [] p hp
    have hready : t ∈ readyTasks tasks p.1 := hchar.2 ▸ ht
    have h := mem_readyTasks tasks p.1 t hready
    refine ⟨h.1, h.2.1, ?_⟩
    intro d hd
    exact h.2.2 d ((taskDependenciesLookup_eq tasks hdag.1 t h.1) ▸ hd)
  · exact coordinationLoop_pairwise tasks fuel []

/-- The mock planning result of `_wait_for_planning` (feature id `f`):
implement, then test and review in parallel, then deploy. -/
def cexPlanTasks : List PlanTask :=
  [{ id := "task_1_f", title := "Implement core functionality",
     assignedAgent := "coder", dependencies := [] },
   { id := "task_2_f", title := "Write tests",
     assignedAgent := "tester", dependencies := ["task_1_f"] },
   { id := "task_3_f", title := "Code review",
     assignedAgent := "reviewer", dependencies := ["task_1_f"] },
   { id := "task_4_f", title := "Deploy",
     assignedAgent := "devops", dependencies := ["task_2_f", "task_3_f"] }]

/-- C1 witness: the diamond-shaped mock planning result is a valid DAG, and
the claim holds for its coordination run. -/
theorem coordinateImplementationTasks_spec_witness :
    validDAG cexPlanTasks ∧
    ((∀ p ∈ coordinateImplementationTasks cexPlanTasks 4, ∀ t ∈ p.2,
        t ∈ cexPlanTasks ∧ t.id ∉ p.1 ∧ ∀ d ∈ t.dependencies, d ∈ p.1) ∧
      List.Pairwise (fun p q => ∀ t ∈ p.2, ∀ u ∈ q.2, t.id ≠ u.id)
        (coordinateImplementationTasks cexPlanTasks 4)) :=
  ⟨by decide, coordinateImplementationTasks_spec cexPlanTasks 4 (by decide)⟩

end AgentFactory
